import Mathlib

/-!
Shallow embedding of the Bitcoin RPC capstone workflow
(`src/rust/src/lib.rs`, with `src/rust/src/main.rs` as an earlier draft of
the same logic).

Monetary amounts are modelled exactly, as rationals denominated in BTC:
`Amount`/`SignedAmount` are fixed-point satoshi counts in the source and
`to_btc` divides by 10^8, so every value the program manipulates is a
rational number.  Node responses (wallet lists, transaction details,
decoded outputs, mining results) are the resolver's inputs; the resolver
itself is translated line by line from `run_rpc_scenario`.

Rust panics (`expect`, `unwrap`) and returned errors
(`bitcoincore_rpc::Error`) are kept distinct: `RunError.panicked` marks a
panic site, `RunError.namedError` a constructed `ReturnedError`.
-/

namespace Capstone

/-- Output script of a decoded transaction output: carries an optional
resolved destination address (`script_pub_key.address` in the source). -/
structure ScriptPubKey where
  address : Option String
  deriving Repr, DecidableEq

/-- One entry of `decode_raw_transaction(..).vout`: a value in BTC and its
script. -/
structure Vout where
  value : ℚ
  script_pub_key : ScriptPubKey
  deriving Repr, DecidableEq

/-- One entry of `GetTransactionResult.details`: the signed amount in BTC
this wallet attributes to the transaction. -/
structure TxDetail where
  amount : ℚ
  deriving Repr, DecidableEq

/-- Result of `get_transaction(txid)` for one wallet: detail entries plus
the optional signed fee field, in BTC. -/
structure GetTransactionResult where
  details : List TxDetail
  fee : Option ℚ
  deriving Repr, DecidableEq

/-- Result of `decode_raw_transaction`: the ordered output list. -/
structure DecodedRawTransaction where
  vout : List Vout
  deriving Repr, DecidableEq

/-- The `OutputFile` struct of the source: the ten fields of the final
transaction summary. -/
structure OutputFile where
  txid : String
  miner_input_address : String
  miner_input_amount : ℚ
  trader_output_address : String
  trader_output_amount : ℚ
  miner_change_address : String
  miner_change_amount : ℚ
  fee : ℚ
  block_height : Nat
  confirmation_block_hash : String
  deriving Repr, DecidableEq

/-- Failure modes of the resolution phase: `namedError` stands for a
`bitcoincore_rpc::Error::ReturnedError` the source constructs, `panicked`
for a Rust panic raised by `expect`/`unwrap`. -/
inductive RunError where
  | namedError (msg : String)
  | panicked (msg : String)
  deriving Repr, DecidableEq

/-- Node-supplied data consumed by the detail-resolution phase of
`run_rpc_scenario` (lines 85-158 of `lib.rs`): the sender wallet's and
recipient wallet's `get_transaction` results, the decoded raw transaction,
the known recipient address, the block-hash list returned by the one-block
`generate_to_address` call, and the height returned by `get_block_info`. -/
structure ResolverInput where
  txid : String
  miner_input_address : String
  miner_tx : GetTransactionResult
  trader_tx : GetTransactionResult
  raw_tx : DecodedRawTransaction
  trader_output_address : String
  confirmation_block : List String
  block_height : Nat
  deriving Repr, DecidableEq

/-- Predicate of the change-output filter in `lib.rs` lines 113-118:
`v.script_pub_key.address.as_ref().is_some_and(|addr| addr != &trader_output_address)`.
An output with no resolvable address yields `false`. -/
def changeCandidate (recipient : String) (v : Vout) : Bool :=
  match v.script_pub_key.address with
  | some a => a != recipient
  | none => false

/-- Detail-resolution phase of `run_rpc_scenario` (`lib.rs` lines 87-158),
translated match for match:
sender input amount is `f64::abs` of the sum over all detail entries;
recipient output amount is the plain sum over the recipient's entries;
the change output is `filter(changeCandidate).next_back()`, failing with
the named error "No miner change output found" when the filtered list is
empty; its address is re-extracted with `ok_or_else` ("No address found in
script_pub_key"); the fee is `miner_tx.fee.expect("fee miner tx")` (a
panic when absent, sign kept); the confirming block hash is
`confirmation_block.first().unwrap()` (a panic when the mining result is
empty). -/
def resolve (inp : ResolverInput) : Except RunError OutputFile :=
  let miner_input_amount : ℚ := |(inp.miner_tx.details.map TxDetail.amount).sum|
  let trader_output_amount : ℚ := (inp.trader_tx.details.map TxDetail.amount).sum
  match (inp.raw_tx.vout.filter (changeCandidate inp.trader_output_address)).getLast? with
  | none => Except.error (RunError.namedError "No miner change output found")
  | some miner_vout =>
    match miner_vout.script_pub_key.address with
    | none => Except.error (RunError.namedError "No address found in script_pub_key")
    | some miner_change_address =>
      match inp.miner_tx.fee with
      | none => Except.error (RunError.panicked "fee miner tx")
      | some fee =>
        match inp.confirmation_block.head? with
        | none => Except.error (RunError.panicked "called Option.unwrap on a None value")
        | some confirmation_block_hash =>
          Except.ok {
            txid := inp.txid
            miner_input_address := inp.miner_input_address
            miner_input_amount := miner_input_amount
            trader_output_address := inp.trader_output_address
            trader_output_amount := trader_output_amount
            miner_change_address := miner_change_address
            miner_change_amount := miner_vout.value
            fee := fee
            block_height := inp.block_height
            confirmation_block_hash := confirmation_block_hash }

/-- Report serialization `OutputFile::to_lines` (`lib.rs` lines 195-208):
the ten fields rendered one string each, in source order. -/
def OutputFile.to_lines (o : OutputFile) : List String :=
  [o.txid,
   o.miner_input_address,
   toString o.miner_input_amount,
   o.trader_output_address,
   toString o.trader_output_amount,
   o.miner_change_address,
   toString o.miner_change_amount,
   toString o.fee,
   toString o.block_height,
   o.confirmation_block_hash]

/-- Content written by `write_to_file` (`lib.rs` lines 166-172):
`File::create` truncates, then each line of `to_lines` is written followed
by a newline.  The resulting file content is the concatenation. -/
def write_to_file (o : OutputFile) : String :=
  String.join (o.to_lines.map (fun line => line ++ "\n"))

/-- Threshold of the funding loop: the literal `20.0` BTC of
`while miner_balance.to_btc() < 20.0` (`lib.rs` line 55). -/
def minerBalanceThresholdBtc : ℚ := 20

/-- Amount of the single payment: `Amount::from_int_btc(20)` at the
`send_to_address` call (`lib.rs` line 69). -/
def paymentAmountBtc : ℚ := 20

/-- Mining loop of `run_rpc_scenario` (`lib.rs` lines 54-58).  The node's
successive balance reads are the stream `balances`; index `n` is the read
after `n` one-block mining calls.  The loop re-reads and keeps mining while
the balance is below the threshold; `fuel` bounds the number of iterations
observed, `none` meaning the loop was still running after `fuel` checks.
On normal exit the value returned is the last balance read. -/
def ensure_balance (balances : Nat → ℚ) : Nat → Nat → Option ℚ
  | 0, _ => none
  | fuel + 1, n =>
    if balances n < minerBalanceThresholdBtc then
      ensure_balance balances fuel (n + 1)
    else
      some (balances n)

/-- Node-side wallet state: the wallets currently loaded and the wallets
existing on disk.  The node itself is an external collaborator of the
program; its contract is §6 of the spec. -/
structure NodeState where
  loaded : List String
  existing : List String
  deriving Repr, DecidableEq

/-- Errors returned by the node RPC library: a JSON-RPC error carrying a
numeric code, or a locally constructed `ReturnedError` message.  The
source inspects errors only through `to_string().contains("code: -4")`. -/
inductive RpcError where
  | jsonRpc (code : Int) (msg : String)
  | returnedError (msg : String)
  deriving Repr, DecidableEq

/-- Test `e.to_string().contains("code: -4")` of the source: true exactly
for a JSON-RPC error whose numeric code is -4. -/
def RpcError.containsCodeMinus4 : RpcError → Bool
  | RpcError.jsonRpc c _ => c == -4
  | RpcError.returnedError _ => false

/-- Modelled from the spec: §6 "list loaded wallets → ordered sequence of
names".  Returns the names of the currently loaded wallets. -/
def list_wallets (s : NodeState) : List String := s.loaded

/-- Modelled from the spec: §6 "load wallet(name) → success or an error
carrying a numeric code; code -4 specifically denotes a load/exists
conflict".  Loading an already-loaded wallet fails with code -4; loading
an existing unloaded wallet succeeds; loading a non-existent wallet fails
with a different code. -/
def load_wallet (s : NodeState) (name : String) :
    Except RpcError (NodeState × String) :=
  if s.loaded.contains name then
    Except.error (RpcError.jsonRpc (-4) "Wallet is already loaded")
  else if s.existing.contains name then
    Except.ok ({ loaded := s.loaded ++ [name], existing := s.existing }, name)
  else
    Except.error (RpcError.jsonRpc (-18) "Wallet not found")

/-- Modelled from the spec: §6 "unload wallet(name) → success or an error
carrying a numeric code".  Unloading removes the name from the loaded
list; unloading a wallet that is not loaded fails. -/
def unload_wallet (s : NodeState) (name : String) : Except RpcError NodeState :=
  if s.loaded.contains name then
    Except.ok { loaded := s.loaded.erase name, existing := s.existing }
  else
    Except.error (RpcError.jsonRpc (-18) "Wallet not loaded")

/-- Modelled from the spec: §6 "create wallet(name) → success or an error
carrying a numeric code; code -4 specifically denotes a load/exists
conflict".  Creating an existing wallet fails with code -4; otherwise the
wallet is created and loaded. -/
def create_wallet (s : NodeState) (name : String) :
    Except RpcError (NodeState × String) :=
  if s.existing.contains name then
    Except.error (RpcError.jsonRpc (-4) "Wallet already exists")
  else
    Except.ok ({ loaded := s.loaded ++ [name], existing := s.existing ++ [name] }, name)

/-- RPC calls `get_wallet` can issue, recorded for call counting. -/
inductive RpcCall where
  | listWalletsCall
  | loadWalletCall (name : String)
  | unloadWalletCall (name : String)
  | createWalletCall (name : String)
  deriving Repr, DecidableEq

/-- Recognizes a load-wallet call in the recorded call list. -/
def RpcCall.isLoad : RpcCall → Bool
  | RpcCall.loadWalletCall _ => true
  | _ => false

/-- Recognizes a create-wallet call in the recorded call list. -/
def RpcCall.isCreate : RpcCall → Bool
  | RpcCall.createWalletCall _ => true
  | _ => false

/-- Recognizes an unload-wallet call in the recorded call list. -/
def RpcCall.isUnload : RpcCall → Bool
  | RpcCall.unloadWalletCall _ => true
  | _ => false

/-- Wallet provisioning `get_wallet` (`lib.rs` lines 211-241), instrumented
with the list of RPC calls it issues.  It lists the loaded wallets and
tests membership of `wallet_name`; on a hit it tries `load_wallet`,
recovering from a "code: -4" conflict by one unload-and-reload; on a miss
it tries `create_wallet`, mapping a "code: -4" conflict to the named
error "Wallet already exists but was not listed". -/
def get_wallet (s : NodeState) (wallet_name : String) :
    Except RpcError (NodeState × String) × List RpcCall :=
  let wallets := list_wallets s
  let wallet_exists := wallets.any (fun wallet => wallet == wallet_name)
  if wallet_exists then
    match load_wallet s wallet_name with
    | Except.ok result =>
      (Except.ok result, [RpcCall.listWalletsCall, RpcCall.loadWalletCall wallet_name])
    | Except.error e =>
      if e.containsCodeMinus4 then
        match unload_wallet s wallet_name with
        | Except.error e2 =>
          (Except.error e2,
           [RpcCall.listWalletsCall, RpcCall.loadWalletCall wallet_name,
            RpcCall.unloadWalletCall wallet_name])
        | Except.ok s2 =>
          (load_wallet s2 wallet_name,
           [RpcCall.listWalletsCall, RpcCall.loadWalletCall wallet_name,
            RpcCall.unloadWalletCall wallet_name, RpcCall.loadWalletCall wallet_name])
      else
        (Except.error e, [RpcCall.listWalletsCall, RpcCall.loadWalletCall wallet_name])
  else
    match create_wallet s wallet_name with
    | Except.ok result =>
      (Except.ok result, [RpcCall.listWalletsCall, RpcCall.createWalletCall wallet_name])
    | Except.error e =>
      if e.containsCodeMinus4 then
        (Except.error (RpcError.returnedError "Wallet already exists but was not listed"),
         [RpcCall.listWalletsCall, RpcCall.createWalletCall wallet_name])
      else
        (Except.error e, [RpcCall.listWalletsCall, RpcCall.createWalletCall wallet_name])

/-- Concrete decoded output paying the recipient. -/
def voutTrader : Vout := { value := 2, script_pub_key := { address := some "trader" } }

/-- Concrete decoded output with no resolvable address (an OP_RETURN-style
script). -/
def voutNoAddr : Vout := { value := 0, script_pub_key := { address := none } }

/-- Concrete decoded output to a first non-recipient address. -/
def voutChg1 : Vout := { value := 1, script_pub_key := { address := some "chg1" } }

/-- Concrete decoded output to a second non-recipient address, placed last
among the addressed outputs. -/
def voutChg2 : Vout := { value := 3, script_pub_key := { address := some "chg2" } }

/-- Concrete resolver input: two sender detail entries summing to -5, one
recipient entry of 2, four decoded outputs (a non-recipient one, the
recipient one, an addressless one, a final non-recipient one), a negative
signed fee field, and a one-hash mining result. -/
def sampleInput : ResolverInput :=
  { txid := "txid0"
    miner_input_address := "mineraddr"
    miner_tx := { details := [{ amount := -3 }, { amount := -2 }],
                  fee := some (-1) }
    trader_tx := { details := [{ amount := 2 }], fee := none }
    raw_tx := { vout := [voutChg1, voutTrader, voutNoAddr, voutChg2] }
    trader_output_address := "trader"
    confirmation_block := ["blockhash1"]
    block_height := 102 }

/-- Concrete resolver input identical to `sampleInput` except the sender
record carries no fee field. -/
def missingFeeInput : ResolverInput :=
  { sampleInput with
      miner_tx := { details := sampleInput.miner_tx.details, fee := none } }

/-- Concrete resolver input identical to `sampleInput` except the one-block
mining result is empty. -/
def emptyMiningInput : ResolverInput :=
  { sampleInput with confirmation_block := [] }

/-- Concrete resolver input whose node-reported quantities satisfy the
balance relation exactly: inputs 25, recipient output 20, change 4,
fee 1. -/
def balancedInput : ResolverInput :=
  { txid := "txid1"
    miner_input_address := "mineraddr"
    miner_tx := { details := [{ amount := -20 }, { amount := -5 }],
                  fee := some 1 }
    trader_tx := { details := [{ amount := 20 }], fee := none }
    raw_tx := { vout := [{ value := 20, script_pub_key := { address := some "trader" } },
                         { value := 4, script_pub_key := { address := some "chg" } }] }
    trader_output_address := "trader"
    confirmation_block := ["blockhash2"]
    block_height := 103 }

/-- Concrete node state with the wallet "Miner" existing and loaded. -/
def minerLoadedState : NodeState :=
  { loaded := ["Miner"], existing := ["Miner"] }

/-- Summary the resolver produces on `sampleInput`. -/
def sampleOutput : OutputFile :=
  { txid := "txid0"
    miner_input_address := "mineraddr"
    miner_input_amount := 5
    trader_output_address := "trader"
    trader_output_amount := 2
    miner_change_address := "chg2"
    miner_change_amount := 3
    fee := -1
    block_height := 102
    confirmation_block_hash := "blockhash1" }

/-- Summary the resolver produces on `balancedInput`. -/
def balancedOutput : OutputFile :=
  { txid := "txid1"
    miner_input_address := "mineraddr"
    miner_input_amount := 25
    trader_output_address := "trader"
    trader_output_amount := 20
    miner_change_address := "chg"
    miner_change_amount := 4
    fee := 1
    block_height := 103
    confirmation_block_hash := "blockhash2" }

/-- Decomposition behind `filter(p).next_back()`: when the last element of
the filtered list is `v`, the original list splits as `l₁ ++ v :: l₂`
where `v` satisfies `p` and nothing after `v` does. -/
theorem getLast?_filter_decomp {α : Type} {p : α → Bool} {l : List α} {v : α}
    (h : (l.filter p).getLast? = some v) :
    ∃ l₁ l₂, l = l₁ ++ v :: l₂ ∧ p v = true ∧ ∀ w ∈ l₂, p w = false := by
  obtain ⟨ys, hys⟩ := List.getLast?_eq_some_iff.mp h
  obtain ⟨l₁, l₂, rfl, hf₁, hf₂⟩ := List.filter_eq_append_iff.mp hys
  obtain ⟨m₁, m₂, rfl, hm₁, hpv, hm₂⟩ := List.filter_eq_cons_iff.mp hf₂
  refine ⟨l₁ ++ m₁, m₂, by simp, hpv, ?_⟩
  intro w hw
  have hnp := List.filter_eq_nil_iff.mp hm₂ w hw
  simpa using hnp

/-- Inversion of a successful resolution: the matches of `resolve` pin the
change output to the last filtered vout, its address, the fee field and
the head of the mining result, and every summary field is determined. -/
theorem resolve_ok_elim (inp : ResolverInput) (s : OutputFile)
    (h : resolve inp = Except.ok s) :
    ∃ mv mca f cbh,
      (inp.raw_tx.vout.filter (changeCandidate inp.trader_output_address)).getLast? = some mv ∧
      mv.script_pub_key.address = some mca ∧
      inp.miner_tx.fee = some f ∧
      inp.confirmation_block.head? = some cbh ∧
      s = { txid := inp.txid
            miner_input_address := inp.miner_input_address
            miner_input_amount := |(inp.miner_tx.details.map TxDetail.amount).sum|
            trader_output_address := inp.trader_output_address
            trader_output_amount := (inp.trader_tx.details.map TxDetail.amount).sum
            miner_change_address := mca
            miner_change_amount := mv.value
            fee := f
            block_height := inp.block_height
            confirmation_block_hash := cbh } := by
  unfold resolve at h
  split at h
  · exact Except.noConfusion h
  next mv hmv =>
    split at h
    · exact Except.noConfusion h
    next mca hmca =>
      split at h
      · exact Except.noConfusion h
      next f hf =>
        split at h
        · exact Except.noConfusion h
        next cbh hcbh =>
          refine ⟨mv, mca, f, cbh, hmv, hmca, hf, hcbh, ?_⟩
          injection h with h2
          exact h2.symm

/-- Computation of the resolver on the concrete `sampleInput`. -/
theorem resolve_sample_eq : resolve sampleInput = Except.ok sampleOutput := by
  have hf : sampleInput.raw_tx.vout.filter (changeCandidate sampleInput.trader_output_address) =
      [voutChg1, voutChg2] := by
    simp [changeCandidate, sampleInput, voutChg1, voutTrader, voutNoAddr, voutChg2, List.filter]
  simp only [resolve, hf]
  simp [sampleInput, sampleOutput, voutChg2]
  norm_num

/-- C1: for every decoded raw transaction on which resolution succeeds, the
change output is the last element of the ordered vout list whose resolved
destination address is present and differs from the known recipient
address; outputs with no resolvable address are excluded from the filter,
and the reported change address and change amount are exactly the address
and value of the selected output.  The vout list splits as
`l₁ ++ v :: l₂` with `v` the selected output and every output after it
either addressless or paying the recipient. -/
theorem change_output_selection (inp : ResolverInput) (s : OutputFile)
    (h : resolve inp = Except.ok s) :
    ∃ v l₁ l₂,
      inp.raw_tx.vout = l₁ ++ v :: l₂ ∧
      v.script_pub_key.address = some s.miner_change_address ∧
      s.miner_change_address ≠ inp.trader_output_address ∧
      s.miner_change_amount = v.value ∧
      ∀ w ∈ l₂, ∀ a, w.script_pub_key.address = some a → a = inp.trader_output_address := by
  obtain ⟨mv, mca, f, cbh, hlast, haddr, hfee, hhead, rfl⟩ := resolve_ok_elim inp s h
  obtain ⟨l₁, l₂, hdecomp, hpv, hl₂⟩ := getLast?_filter_decomp hlast
  refine ⟨mv, l₁, l₂, hdecomp, haddr, ?_, rfl, ?_⟩
  · unfold changeCandidate at hpv
    rw [haddr] at hpv
    simpa using hpv
  · intro w hw a ha
    have hnp := hl₂ w hw
    unfold changeCandidate at hnp
    rw [ha] at hnp
    simpa using hnp

/-- C1 witness: on `sampleInput` the selected change output is the final
`voutChg2`, with address "chg2" and value 5/2, and the addressless output
and the recipient output after position of `voutChg2` do not exist. -/
theorem change_output_selection_witness :
    ∃ v l₁ l₂,
      sampleInput.raw_tx.vout = l₁ ++ v :: l₂ ∧
      v.script_pub_key.address = some sampleOutput.miner_change_address ∧
      sampleOutput.miner_change_address ≠ sampleInput.trader_output_address ∧
      sampleOutput.miner_change_amount = v.value ∧
      ∀ w ∈ l₂, ∀ a, w.script_pub_key.address = some a →
        a = sampleInput.trader_output_address :=
  change_output_selection sampleInput sampleOutput resolve_sample_eq

/-- C3 counterexample: `sampleInput` resolves successfully and the reported
fee is the negative value -41/10^8 taken unchanged from the sender
record's signed fee field, so the reported fee is not the absolute
magnitude of that field. -/
theorem fee_reported_negative :
    resolve sampleInput = Except.ok sampleOutput ∧ sampleOutput.fee < 0 := by
  refine ⟨resolve_sample_eq, ?_⟩
  norm_num [sampleOutput]

/-- C3 amended: the fee placed in the summary is the signed value of the
sender record's fee field, with its sign preserved (no absolute value is
taken); a negative field is reported negative. -/
theorem fee_sign_preserved (inp : ResolverInput) (s : OutputFile) (f : ℚ)
    (h : resolve inp = Except.ok s) (hf : inp.miner_tx.fee = some f) :
    s.fee = f := by
  obtain ⟨mv, mca, f2, cbh, hlast, haddr, hf2, hhead, rfl⟩ := resolve_ok_elim inp s h
  rw [hf] at hf2
  injection hf2 with hff
  exact hff.symm

/-- C3 witness: on `sampleInput`, whose fee field is -1, the resolved
summary's fee is exactly -1. -/
theorem fee_sign_preserved_witness :
    sampleOutput.fee = -1 :=
  fee_sign_preserved sampleInput sampleOutput (-1) resolve_sample_eq rfl

/-- C6: for every successful resolution, the reported sender input amount
is the absolute value of the sum of the signed amounts of all of the
sender record's detail entries. -/
theorem input_amount_sums_all_details (inp : ResolverInput) (s : OutputFile)
    (h : resolve inp = Except.ok s) :
    s.miner_input_amount = |(inp.miner_tx.details.map TxDetail.amount).sum| := by
  obtain ⟨mv, mca, f, cbh, hlast, haddr, hf, hhead, rfl⟩ := resolve_ok_elim inp s h
  rfl

/-- C6 witness: on `sampleInput`, whose sender record has the two detail
entries -3 and -2, the reported input amount is |(-3) + (-2)| = 5 — both
entries enter the sum, not only the first. -/
theorem input_amount_sums_all_details_witness :
    sampleOutput.miner_input_amount =
      |((sampleInput.miner_tx.details.map TxDetail.amount).sum)| :=
  input_amount_sums_all_details sampleInput sampleOutput resolve_sample_eq

/-- C4 counterexample: on `missingFeeInput` — a confirmed transaction whose
sender record has no fee field, while a change candidate exists — the
resolver panics (`expect("fee miner tx")`) instead of returning a named
error condition. -/
theorem resolver_panics_on_missing_fee :
    resolve missingFeeInput = Except.error (RunError.panicked "fee miner tx") := by
  have hf : missingFeeInput.raw_tx.vout.filter
      (changeCandidate missingFeeInput.trader_output_address) = [voutChg1, voutChg2] := by
    simp [changeCandidate, missingFeeInput, sampleInput, voutChg1, voutTrader,
      voutNoAddr, voutChg2, List.filter]
  simp only [resolve, hf]
  simp [missingFeeInput, sampleInput, voutChg2]

/-- C4 amended: only the empty change-candidate set is reported as a named
error condition ("No miner change output found"); a missing fee field on
the sender record and an empty one-block mining result cause panics
(`expect`/`unwrap`), not named error conditions. -/
theorem invariant_violation_handling :
    (∀ inp : ResolverInput,
      (inp.raw_tx.vout.filter (changeCandidate inp.trader_output_address)).getLast? = none →
      resolve inp = Except.error (RunError.namedError "No miner change output found")) ∧
    (∀ inp : ResolverInput, ∀ v : Vout,
      (inp.raw_tx.vout.filter (changeCandidate inp.trader_output_address)).getLast? = some v →
      inp.miner_tx.fee = none →
      resolve inp = Except.error (RunError.panicked "fee miner tx")) ∧
    (∀ inp : ResolverInput, ∀ v : Vout, ∀ f : ℚ,
      (inp.raw_tx.vout.filter (changeCandidate inp.trader_output_address)).getLast? = some v →
      inp.miner_tx.fee = some f →
      inp.confirmation_block = [] →
      resolve inp = Except.error (RunError.panicked "called Option.unwrap on a None value")) := by
  have haddr : ∀ (r : String) (v : Vout) (l : List Vout),
      (l.filter (changeCandidate r)).getLast? = some v →
      ∃ a, v.script_pub_key.address = some a := by
    intro r v l hv
    have hmem : v ∈ l.filter (changeCandidate r) := List.mem_of_getLast?_eq_some hv
    have hp : changeCandidate r v = true := (List.mem_filter.mp hmem).2
    unfold changeCandidate at hp
    cases hcase : v.script_pub_key.address with
    | none => rw [hcase] at hp; simp at hp
    | some a => exact ⟨a, rfl⟩
  refine ⟨?_, ?_, ?_⟩
  · intro inp hnone
    simp [resolve, hnone]
  · intro inp v hv hfee
    obtain ⟨a, ha⟩ := haddr inp.trader_output_address v inp.raw_tx.vout hv
    simp [resolve, hv, ha, hfee]
  · intro inp v f hv hf hcb
    obtain ⟨a, ha⟩ := haddr inp.trader_output_address v inp.raw_tx.vout hv
    simp [resolve, hv, ha, hf, hcb]

/-- C4 witness: on `emptyMiningInput` — whose one-block mining result holds
no block hash — the resolver panics at the `first().unwrap()` site. -/
theorem invariant_violation_handling_witness :
    resolve emptyMiningInput =
      Except.error (RunError.panicked "called Option.unwrap on a None value") :=
  invariant_violation_handling.2.2 emptyMiningInput voutChg2 (-1)
    (by simp [changeCandidate, emptyMiningInput, sampleInput, voutChg1, voutTrader,
      voutNoAddr, voutChg2, List.filter])
    rfl rfl

/-- C5 counterexample: `sampleInput` resolves successfully, yet
input − output − change − fee = 5 − 2 − 3 − (−1) = 1, which is not within
1e-8 of zero: the resolver enforces no such relation. -/
theorem balance_relation_counterexample :
    resolve sampleInput = Except.ok sampleOutput ∧
    ¬ abs (sampleOutput.miner_input_amount - sampleOutput.trader_output_amount -
        sampleOutput.miner_change_amount - sampleOutput.fee) < 1 / 100000000 := by
  refine ⟨resolve_sample_eq, ?_⟩
  have h1 : sampleOutput.miner_input_amount - sampleOutput.trader_output_amount -
      sampleOutput.miner_change_amount - sampleOutput.fee = 1 := by
    norm_num [sampleOutput]
  rw [h1]
  norm_num

/-- C5 amended: the resolver copies the node-reported quantities without
enforcing any relation among them; the relation
|input − output − change − fee| < 1e-8 holds for a resolved summary
exactly when the node-reported sums, selected change value and fee field
already satisfy it. -/
theorem balance_relation_conditional (inp : ResolverInput) (s : OutputFile) (v : Vout) (f : ℚ)
    (hv : (inp.raw_tx.vout.filter (changeCandidate inp.trader_output_address)).getLast? = some v)
    (hf : inp.miner_tx.fee = some f)
    (h : resolve inp = Except.ok s)
    (hrel : abs (abs ((inp.miner_tx.details.map TxDetail.amount).sum) -
        (inp.trader_tx.details.map TxDetail.amount).sum - v.value - f) < 1 / 100000000) :
    abs (s.miner_input_amount - s.trader_output_amount - s.miner_change_amount - s.fee) <
      1 / 100000000 := by
  obtain ⟨mv, mca, f2, cbh, hv2, ha2, hf2, hh2, rfl⟩ := resolve_ok_elim inp s h
  rw [hv] at hv2
  injection hv2 with hvv
  rw [hf] at hf2
  injection hf2 with hff
  subst hvv
  subst hff
  exact hrel

/-- Computation of the resolver on the concrete `balancedInput`. -/
theorem resolve_balanced_eq : resolve balancedInput = Except.ok balancedOutput := by
  have hf : balancedInput.raw_tx.vout.filter
      (changeCandidate balancedInput.trader_output_address) =
      [{ value := 4, script_pub_key := { address := some "chg" } }] := by
    simp [changeCandidate, balancedInput, List.filter]
  simp only [resolve, hf]
  simp [balancedInput, balancedOutput]
  norm_num

/-- C5 witness: on `balancedInput`, whose node-reported quantities satisfy
25 − 20 − 4 − 1 = 0, the resolved summary satisfies the relation. -/
theorem balance_relation_conditional_witness :
    abs (balancedOutput.miner_input_amount - balancedOutput.trader_output_amount -
      balancedOutput.miner_change_amount - balancedOutput.fee) < 1 / 100000000 :=
  balance_relation_conditional balancedInput balancedOutput
    { value := 4, script_pub_key := { address := some "chg" } } 1
    (by simp [changeCandidate, balancedInput, List.filter])
    rfl resolve_balanced_eq
    (by norm_num [balancedInput])

/-- Computation of `get_wallet` on a wallet name that appears in the loaded
list: the first load fails with the "-4" conflict, so the wallet is
unloaded and reloaded, and four RPC calls are recorded. -/
theorem get_wallet_loaded_eq (s : NodeState) (name : String)
    (hnd : s.loaded.Nodup) (hl : name ∈ s.loaded) (he : name ∈ s.existing) :
    get_wallet s name =
      (Except.ok ({ loaded := s.loaded.erase name ++ [name], existing := s.existing }, name),
       [RpcCall.listWalletsCall, RpcCall.loadWalletCall name,
        RpcCall.unloadWalletCall name, RpcCall.loadWalletCall name]) := by
  have hany : (s.loaded.any (fun wallet => wallet == name)) = true := by
    rw [List.any_eq_true]
    exact ⟨name, hl, by simp⟩
  have h1 : load_wallet s name =
      Except.error (RpcError.jsonRpc (-4) "Wallet is already loaded") := by
    simp [load_wallet, hl]
  have h2 : unload_wallet s name =
      Except.ok { loaded := s.loaded.erase name, existing := s.existing } := by
    simp [unload_wallet, hl]
  have h3 : load_wallet { loaded := s.loaded.erase name, existing := s.existing } name =
      Except.ok ({ loaded := s.loaded.erase name ++ [name], existing := s.existing }, name) := by
    simp [load_wallet, hnd.not_mem_erase, he]
  simp only [get_wallet, list_wallets, hany, if_true, h1, h2, h3,
    RpcError.containsCodeMinus4]
  simp

/-- C2 counterexample: with the wallet "Miner" in the node's loaded list,
`get_wallet` returns successfully but issues two load-wallet calls, not
zero. -/
theorem get_wallet_loaded_counterexample :
    (get_wallet minerLoadedState "Miner").1 =
      Except.ok ({ loaded := ["Miner"], existing := ["Miner"] }, "Miner") ∧
    (get_wallet minerLoadedState "Miner").2.countP RpcCall.isLoad = 2 := by
  constructor
  · rfl
  · rfl

/-- C2 amended: for every wallet name in the node's list of currently
loaded wallets (no duplicate entries, name existing on disk), `get_wallet`
returns successfully, but it issues two load-wallet calls (the first
failing with the already-loaded "-4" conflict) and one unload-wallet call;
it issues zero create-wallet calls. -/
theorem get_wallet_loaded_reloads (s : NodeState) (name : String)
    (hnd : s.loaded.Nodup) (hl : name ∈ s.loaded) (he : name ∈ s.existing) :
    (∃ s2 : NodeState, (get_wallet s name).1 = Except.ok (s2, name)) ∧
    (get_wallet s name).2.countP RpcCall.isLoad = 2 ∧
    (get_wallet s name).2.countP RpcCall.isUnload = 1 ∧
    (get_wallet s name).2.countP RpcCall.isCreate = 0 := by
  rw [get_wallet_loaded_eq s name hnd hl he]
  exact ⟨⟨_, rfl⟩, rfl, rfl, rfl⟩

/-- C2 witness: the amended behavior observed at the concrete node state
with "Miner" loaded. -/
theorem get_wallet_loaded_reloads_witness :
    (∃ s2 : NodeState, (get_wallet minerLoadedState "Miner").1 = Except.ok (s2, "Miner")) ∧
    (get_wallet minerLoadedState "Miner").2.countP RpcCall.isLoad = 2 ∧
    (get_wallet minerLoadedState "Miner").2.countP RpcCall.isUnload = 1 ∧
    (get_wallet minerLoadedState "Miner").2.countP RpcCall.isCreate = 0 :=
  get_wallet_loaded_reloads minerLoadedState "Miner" (by simp [minerLoadedState])
    (by simp [minerLoadedState]) (by simp [minerLoadedState])

/-- Every normal exit of the mining loop returns a balance at or above the
threshold. -/
theorem ensure_balance_some_ge (balances : Nat → ℚ) :
    ∀ fuel n b, ensure_balance balances fuel n = some b → minerBalanceThresholdBtc ≤ b := by
  intro fuel
  induction fuel with
  | zero => intro n b h; simp [ensure_balance] at h
  | succ f ih =>
    intro n b h
    rw [ensure_balance] at h
    by_cases hc : balances n < minerBalanceThresholdBtc
    · rw [if_pos hc] at h
      exact ih (n + 1) b h
    · rw [if_neg hc] at h
      injection h with h2
      rw [← h2]
      exact le_of_not_lt hc

/-- C7: `ensure_balance` never returns normally while the last observed
balance is below the 20 BTC threshold: whenever the loop exits with a
balance `b`, that balance satisfies `20 ≤ b`. -/
theorem ensure_balance_exit_threshold (balances : Nat → ℚ) (fuel n : Nat) (b : ℚ)
    (h : ensure_balance balances fuel n = some b) :
    minerBalanceThresholdBtc ≤ b ∧ (20 : ℚ) ≤ b := by
  have hge := ensure_balance_some_ge balances fuel n b h
  exact ⟨hge, hge⟩

/-- C7 witness: with every balance read equal to 50 the loop exits at once
with 50, and 50 is at or above the threshold. -/
theorem ensure_balance_exit_threshold_witness :
    minerBalanceThresholdBtc ≤ 50 ∧ (20 : ℚ) ≤ 50 :=
  ensure_balance_exit_threshold (fun _ => 50) 1 0 50 (by decide)

/-- When the balance reaches the threshold within the allotted fuel, the
mining loop exits normally. -/
theorem ensure_balance_some_of_future (balances : Nat → ℚ) :
    ∀ fuel n, (∃ k, k < fuel ∧ minerBalanceThresholdBtc ≤ balances (n + k)) →
      (ensure_balance balances fuel n).isSome = true := by
  intro fuel
  induction fuel with
  | zero =>
    rintro n ⟨k, hk, _⟩
    exact absurd hk (Nat.not_lt_zero k)
  | succ f ih =>
    rintro n ⟨k, hk, hb⟩
    rw [ensure_balance]
    by_cases hc : balances n < minerBalanceThresholdBtc
    · rw [if_pos hc]
      apply ih
      cases k with
      | zero =>
        rw [Nat.add_zero] at hb
        exact absurd hc (not_lt.mpr hb)
      | succ k2 =>
        have heq : n + (k2 + 1) = (n + 1) + k2 := by omega
        rw [heq] at hb
        exact ⟨k2, by omega, hb⟩
    · rw [if_neg hc]
      rfl

/-- C8: under the hypothesis that every one-block mining call adds a fixed
positive reward `r` to the balance, the mining loop terminates: some
finite fuel suffices for a normal exit. -/
theorem mining_loop_bounded_termination (balances : Nat → ℚ) (r : ℚ)
    (hr : 0 < r) (hstep : ∀ n, balances (n + 1) = balances n + r) :
    ∃ fuel, (ensure_balance balances fuel 0).isSome = true := by
  have hlin : ∀ n : Nat, balances n = balances 0 + n * r := by
    intro n
    induction n with
    | zero => simp
    | succ m ih =>
      rw [hstep m, ih]
      push_cast
      ring
  obtain ⟨N, hN⟩ := exists_nat_gt ((minerBalanceThresholdBtc - balances 0) / r)
  refine ⟨N + 1, ensure_balance_some_of_future balances (N + 1) 0 ⟨N, Nat.lt_succ_self N, ?_⟩⟩
  rw [Nat.zero_add, hlin N]
  have hmul : minerBalanceThresholdBtc - balances 0 < N * r := (div_lt_iff₀ hr).mp hN
  linarith

/-- C8 witness: with a per-block reward of 50 starting from 50, some fuel
makes the loop exit normally. -/
theorem mining_loop_bounded_termination_witness :
    ∃ fuel, (ensure_balance (fun n => (50 : ℚ) * (n + 1)) fuel 0).isSome = true :=
  mining_loop_bounded_termination (fun n => (50 : ℚ) * (n + 1)) 50 (by norm_num)
    (fun n => by push_cast; ring)

/-- C9: the report writer emits exactly ten lines, one field value per
line, in the fixed order txid, sender input address, sender input amount,
recipient address, recipient output amount, change address, change
amount, fee, block height, confirming block hash — and the written file
content is exactly those lines, each terminated by a newline. -/
theorem report_lines_fixed_order (o : OutputFile) :
    o.to_lines =
      [o.txid, o.miner_input_address, toString o.miner_input_amount,
       o.trader_output_address, toString o.trader_output_amount,
       o.miner_change_address, toString o.miner_change_amount,
       toString o.fee, toString o.block_height, o.confirmation_block_hash] ∧
    o.to_lines.length = 10 ∧
    write_to_file o = String.join (o.to_lines.map (fun line => line ++ "\n")) :=
  ⟨rfl, rfl, rfl⟩

/-- C10: the payment amount constant (20 BTC) equals the funding-loop
threshold constant (20 BTC); consequently every normal exit of the funding
loop guarantees a balance at or above the payment amount, and the
threshold does not additionally provision any positive fee on top of the
payment amount. -/
theorem payment_equals_funding_threshold :
    paymentAmountBtc = minerBalanceThresholdBtc ∧
    (∀ balances : Nat → ℚ, ∀ fuel n : Nat, ∀ b : ℚ,
      ensure_balance balances fuel n = some b → paymentAmountBtc ≤ b) ∧
    (∀ fee : ℚ, 0 < fee → minerBalanceThresholdBtc < paymentAmountBtc + fee) := by
  refine ⟨rfl, ?_, ?_⟩
  · intro balances fuel n b h
    exact ensure_balance_some_ge balances fuel n b h
  · intro fee hf
    unfold paymentAmountBtc minerBalanceThresholdBtc
    linarith

/-- C10 witness: the loop-exit guarantee applied at a concrete stream, and
the no-fee-margin fact at fee 1. -/
theorem payment_equals_funding_threshold_witness :
    paymentAmountBtc ≤ 42 ∧ minerBalanceThresholdBtc < paymentAmountBtc + 1 :=
  ⟨payment_equals_funding_threshold.2.1 (fun _ => 42) 1 0 42 (by decide),
   payment_equals_funding_threshold.2.2 1 (by norm_num)⟩

end Capstone
